import Mathlib

/-!
Verification of the ANPR (automated number-plate recognition) access-control
pipeline: a shallow embedding of src/main.py, src/src/database.py,
src/src/detector.py and src/src/ocr.py, with theorems settling the frozen
claims about plate normalization, the authorization registry, the per-plate
cooldown deduplicator, the persistence paths and the per-frame pipeline.

Modelling conventions:
- Python strings are Lean String; the ASCII case mapping of Char.toUpper models
  str.upper() (plates are ASCII alphanumeric).
- OCR confidences and time instants (time.time()) are rationals.
- The sqlite tables and the JSON ledger are modelled as lists: the
  authorized_vehicles table as an association list keyed by plate_number, the
  access_logs / all_detections tables as append-only lists of rows, the
  vehicles.db.json array as a list of profiles.
- A Python call that may raise is given its outcome as an explicit parameter
  (an Except value or a Bool flag); raising where the source has no enclosing
  handler is modelled as an error value that propagates.
-/

namespace ANPR

/-! ### Plate normalization

database.py normalizes every plate argument with
  clean_plate = plate_number.replace(' ', '').upper()
(lines 58, 69, 142, 155): remove every space character, then uppercase. -/

/-- Embeds plate_number.replace(' ', '').upper() from database.py: drop every
space character, then map each character to upper case. -/
def normalizePlate (s : String) : String :=
  String.mk ((s.data.filter fun c => c ≠ ' ').map Char.toUpper)

/-- Unpacking a valid code point round-trips through Char.ofNat. -/
theorem toNat_ofNat_of_valid {n : Nat} (h : n.isValidChar) : (Char.ofNat n).toNat = n := by
  rw [Char.ofNat, dif_pos h]
  rfl

/-- The numeric value of Char.toUpper: subtract 32 on a lowercase ASCII letter,
identity otherwise. -/
theorem toUpper_toNat (c : Char) :
    c.toUpper.toNat = if c.toNat ≥ 97 ∧ c.toNat ≤ 122 then c.toNat - 32 else c.toNat := by
  unfold Char.toUpper
  by_cases h : c.toNat ≥ 97 ∧ c.toNat ≤ 122
  · rw [if_pos h, if_pos h]
    have hv : (c.toNat - 32).isValidChar := by
      left
      omega
    exact toNat_ofNat_of_valid hv
  · rw [if_neg h, if_neg h]

/-- Characters with the same code point are equal. -/
theorem char_eq_of_toNat_eq {a b : Char} (h : a.toNat = b.toNat) : a = b :=
  Char.eq_of_val_eq (UInt32.toNat.inj h)

/-- The image of Char.toUpper never lands in the lowercase ASCII range. -/
theorem toUpper_not_lower (c : Char) : ¬(c.toUpper.toNat ≥ 97 ∧ c.toUpper.toNat ≤ 122) := by
  rw [toUpper_toNat]
  by_cases h2 : c.toNat ≥ 97 ∧ c.toNat ≤ 122
  · rw [if_pos h2]
    omega
  · rw [if_neg h2]
    exact h2

/-- Char.toUpper is idempotent. -/
theorem toUpper_toUpper (c : Char) : c.toUpper.toUpper = c.toUpper := by
  apply char_eq_of_toNat_eq
  rw [toUpper_toNat (Char.toUpper c), if_neg (toUpper_not_lower c)]

/-- Char.toUpper sends no character to the space character. -/
theorem toUpper_ne_space {c : Char} (h : c ≠ ' ') : c.toUpper ≠ ' ' := by
  intro he
  have hn : c.toUpper.toNat = 32 := by rw [he]; rfl
  rw [toUpper_toNat] at hn
  by_cases h2 : c.toNat ≥ 97 ∧ c.toNat ≤ 122
  · rw [if_pos h2] at hn
    omega
  · rw [if_neg h2] at hn
    apply h
    apply Char.eq_of_val_eq
    have : c.val.toNat = (' ' : Char).val.toNat := hn
    exact UInt32.toNat.inj this

/-- Normalization is idempotent: database.py's replace-then-upper cleaning is a
fixed point on its own output. -/
theorem normalizePlate_idem (s : String) : normalizePlate (normalizePlate s) = normalizePlate s := by
  unfold normalizePlate
  apply congrArg
  have h1 : ((s.data.filter fun c => c ≠ ' ').map Char.toUpper).filter (fun c => c ≠ ' ')
      = (s.data.filter fun c => c ≠ ' ').map Char.toUpper := by
    apply List.filter_eq_self.mpr
    intro a ha
    rcases List.mem_map.mp ha with ⟨b, hb, rfl⟩
    have hbne : b ≠ ' ' := by
      have := List.of_mem_filter hb
      simpa using this
    simpa using toUpper_ne_space hbne
  rw [h1, List.map_map]
  apply List.map_congr_left
  intro a _
  exact toUpper_toUpper a

/-- Claim C8: plate normalization is idempotent and insensitive to case and
spaces: normalize(normalize(s)) = normalize(s) for every string s, and
normalize("ka01 ab1234") = "KA01AB1234" = normalize("KA01AB1234"). -/
theorem normalizePlate_idempotent_spec :
    (∀ s : String, normalizePlate (normalizePlate s) = normalizePlate s) ∧
    normalizePlate "ka01 ab1234" = "KA01AB1234" ∧
    normalizePlate "KA01AB1234" = "KA01AB1234" := by
  refine ⟨normalizePlate_idem, ?_, ?_⟩ <;> rfl

/-! ### Authorization registry (database.py, ANPRDatabase)

The authorized_vehicles table has plate_number as PRIMARY KEY; it is modelled
as an association list keyed by the (normalized) plate, looked up with
List.lookup. -/

/-- The authorized_vehicles table: plate_number (primary key) to owner_name. -/
abbrev Registry := List (String × String)

/-- Embeds database.py lines 52-65 (is_authorized): normalize the argument,
SELECT owner_name by primary key; (True, owner) on a hit, (False, None) on a
miss. -/
def is_authorized (reg : Registry) (plate_number : String) : Bool × Option String :=
  let clean_plate := normalizePlate plate_number
  match reg.lookup clean_plate with
  | Option.some owner => (true, Option.some owner)
  | Option.none => (false, Option.none)

/-- Embeds database.py lines 153-164 (add_authorized_vehicle): normalize, then
INSERT on the primary key; sqlite3.IntegrityError on a duplicate key is caught,
the table is left unchanged and False is returned, otherwise the row is
inserted and True returned. -/
def add_authorized_vehicle (reg : Registry) (plate_number owner_name : String) :
    Registry × Bool :=
  let clean_plate := normalizePlate plate_number
  match reg.lookup clean_plate with
  | Option.some _ => (reg, false)
  | Option.none => ((clean_plate, owner_name) :: reg, true)

/-- Claim C6: if the normalized plate is already a key of the registry,
add_authorized_vehicle returns false and leaves the registry (in particular the
stored owner) unchanged; if the key is absent it inserts the pair and returns
true, leaving every other key unchanged. -/
theorem add_authorized_vehicle_spec (reg : Registry) (p o : String) :
    (∀ o₀, reg.lookup (normalizePlate p) = Option.some o₀ →
      add_authorized_vehicle reg p o = (reg, false)) ∧
    (reg.lookup (normalizePlate p) = Option.none →
      (add_authorized_vehicle reg p o).2 = true ∧
      (add_authorized_vehicle reg p o).1.lookup (normalizePlate p) = Option.some o ∧
      ∀ q, q ≠ normalizePlate p →
        (add_authorized_vehicle reg p o).1.lookup q = reg.lookup q) := by
  constructor
  · intro o₀ h
    simp only [add_authorized_vehicle]
    rw [h]
  · intro h
    simp only [add_authorized_vehicle]
    rw [h]
    refine ⟨rfl, ?_, ?_⟩
    · simp [List.lookup]
    · intro q hq
      simp only [List.lookup]
      rw [beq_false_of_ne hq]

/-- Closed witness for claim C6 at a concrete registry: the duplicate insert is
declined without change, the fresh insert lands under the normalized key. -/
theorem add_authorized_vehicle_spec_witness :
    add_authorized_vehicle [("KA01AB1234", "Admin User")] "ka01 ab1234" "Mallory"
        = ([("KA01AB1234", "Admin User")], false) ∧
    (add_authorized_vehicle [] "ka01 ab1234" "Admin User").2 = true ∧
    (add_authorized_vehicle [] "ka01 ab1234" "Admin User").1.lookup "KA01AB1234"
        = Option.some "Admin User" := by
  refine ⟨(add_authorized_vehicle_spec [("KA01AB1234", "Admin User")] "ka01 ab1234" "Mallory").1
      "Admin User" (by rfl), ?_, ?_⟩
  · exact ((add_authorized_vehicle_spec [] "ka01 ab1234" "Admin User").2 (by rfl)).1
  · exact ((add_authorized_vehicle_spec [] "ka01 ab1234" "Admin User").2 (by rfl)).2.1

/-- Claim C7: is_authorized returns (true, owner) iff the normalization of the
input is a registered key holding that owner, and (false, none) iff the
normalized input is absent from the registry. -/
theorem is_authorized_spec (reg : Registry) (p : String) :
    (∀ o, is_authorized reg p = (true, Option.some o) ↔
      reg.lookup (normalizePlate p) = Option.some o) ∧
    (is_authorized reg p = (false, Option.none) ↔
      reg.lookup (normalizePlate p) = Option.none) := by
  simp only [is_authorized]
  cases h : reg.lookup (normalizePlate p) with
  | none => simp
  | some o₀ => simp

/-! ### OCR text extraction (ocr.py, OCRSystem.extract_text)

ocr.py lines 35-66: the EasyOCR reader's raw results (a list of (text,
confidence) pairs; the bounding boxes are unused) are scanned for the
highest-confidence candidate whose cleaned text has length over 3. Cleaning is
re.sub of [^A-Z0-9] with the empty string on text.upper(): uppercase, then keep
only the characters A-Z and 0-9. -/

/-- Holds exactly for the characters the regex [A-Z0-9] keeps: code points
65..90 are A..Z, 48..57 are 0..9. -/
def isPlateChar (c : Char) : Bool :=
  decide ((65 ≤ c.toNat ∧ c.toNat ≤ 90) ∨ (48 ≤ c.toNat ∧ c.toNat ≤ 57))

/-- Embeds re.sub of the pattern [^A-Z0-9] with the empty replacement applied
to text.upper() (ocr.py line 59). -/
def cleanOCRText (s : String) : String :=
  String.mk ((s.data.map Char.toUpper).filter isPlateChar)

/-- A kept OCR character is its own upper case and is not a space. -/
theorem plateChar_fixed {c : Char} (h : isPlateChar c = true) :
    Char.toUpper c = c ∧ c ≠ ' ' := by
  have hp := of_decide_eq_true h
  constructor
  · apply char_eq_of_toNat_eq
    rw [toUpper_toNat, if_neg]
    omega
  · intro he
    have : c.toNat = 32 := by rw [he]; rfl
    omega

/-- Cleaned OCR text is a fixed point of plate normalization: it is uppercase
alphanumeric with no spaces. -/
theorem normalizePlate_cleanOCRText (s : String) :
    normalizePlate (cleanOCRText s) = cleanOCRText s := by
  unfold normalizePlate cleanOCRText
  apply congrArg
  have hmem : ∀ c ∈ (s.data.map Char.toUpper).filter isPlateChar, isPlateChar c = true :=
    fun c hc => List.of_mem_filter hc
  have h1 : ((s.data.map Char.toUpper).filter isPlateChar).filter (fun c => c ≠ ' ')
      = (s.data.map Char.toUpper).filter isPlateChar := by
    apply List.filter_eq_self.mpr
    intro a ha
    simpa using (plateChar_fixed (hmem a ha)).2
  rw [h1]
  rw [show ((s.data.map Char.toUpper).filter isPlateChar).map Char.toUpper
        = ((s.data.map Char.toUpper).filter isPlateChar).map id from
      List.map_congr_left fun a ha => (plateChar_fixed (hmem a ha)).1]
  exact List.map_id _

/-- One iteration of the candidate-selection loop of ocr.py lines 57-64: keep
the cleaned candidate when its length is over 3 and its confidence beats the
best so far. -/
def ocrStep (b r : String × ℚ) : String × ℚ :=
  let cleanText := cleanOCRText r.1
  if cleanText.length > 3 ∧ r.2 > b.2 then (cleanText, r.2) else b

/-- The loop of ocr.py lines 53-64, started from best_text = "", best_conf = 0. -/
def selectBest (results : List (String × ℚ)) : String × ℚ :=
  results.foldl ocrStep ("", 0)

/-- Embeds ocr.py lines 35-66 (extract_text). imageOk is false when
plate_image is None or empty (line 40), results are the reader's raw
detections; the two early returns give (None, 0.0). -/
def extract_text (imageOk : Bool) (results : List (String × ℚ)) : Option String × ℚ :=
  if imageOk = false then (Option.none, 0)
  else if results.isEmpty then (Option.none, 0)
  else (Option.some (selectBest results).1, (selectBest results).2)

/-- The selection loop preserves the fixed-point property of the running best
text. -/
theorem ocrStep_fixed (b r : String × ℚ) (hb : normalizePlate b.1 = b.1) :
    normalizePlate (ocrStep b r).1 = (ocrStep b r).1 := by
  unfold ocrStep
  by_cases h : (cleanOCRText r.1).length > 3 ∧ r.2 > b.2
  · rw [if_pos h]
    exact normalizePlate_cleanOCRText r.1
  · rw [if_neg h]
    exact hb

/-- Every text the OCR selection loop can return is a fixed point of plate
normalization. -/
theorem selectBest_fixed (results : List (String × ℚ)) :
    normalizePlate (selectBest results).1 = (selectBest results).1 := by
  unfold selectBest
  suffices h : ∀ (l : List (String × ℚ)) (b : String × ℚ), normalizePlate b.1 = b.1 →
      normalizePlate (l.foldl ocrStep b).1 = (l.foldl ocrStep b).1 by
    exact h results ("", 0) rfl
  intro l
  induction l with
  | nil => intro b hb; exact hb
  | cons r l ih =>
      intro b hb
      rw [List.foldl_cons]
      exact ih (ocrStep b r) (ocrStep_fixed b r hb)

/-! ### Persistence rows and the vehicle ledger (database.py)

The access_logs and all_detections tables are append-only row lists; the
vehicles.db.json ledger is a list of per-vehicle profiles. The timestamp
column (datetime.now()) and the GPS-state file contents do not influence any
claimed behavior, so a row carries the fields the claims speak about and the
ledger location entry is passed in already built (database.py lines 98-121
build it from the gps_state.json contents and the timestamp). -/

/-- One element of a profile's locations array (database.py lines 117-121). -/
structure LocEntry where
  lat : String
  long : String
  timestamp : String
deriving DecidableEq

/-- One object of the vehicles.db.json array (database.py lines 128-133). -/
structure VehicleProfile where
  ownerName : String
  vehicleName : String
  numberPlate : String
  locations : List LocEntry
deriving DecidableEq

/-- Embeds the Python truthiness fallback owner_name if owner_name else
"Unknown" (database.py line 129): None and the empty string both give
"Unknown". -/
def ownerOrUnknown : Option String → String
  | Option.none => "Unknown"
  | Option.some o => if o = "" then "Unknown" else o

/-- Embeds the in-place mutation vehicle_entry["locations"].append(loc_entry)
(database.py line 124): next() finds the first profile with the plate, and
exactly that profile's list is extended. -/
def appendToFirst : List VehicleProfile → String → LocEntry → List VehicleProfile
  | [], _, _ => []
  | item :: rest, p, loc =>
      if item.numberPlate == p then
        { item with locations := item.locations ++ [loc] } :: rest
      else item :: appendToFirst rest p loc

/-- Embeds database.py lines 83-137 (_log_to_json): read the ledger array,
find the first profile whose numberPlate equals the plate; append the new
location sample to it when found, otherwise append one new profile whose owner
comes from is_authorized (with the "Unknown" fallback), with an empty
vehicleName and this single sample, then write the array back. -/
def log_to_json (reg : Registry) (data : List VehicleProfile) (plate_number : String)
    (loc : LocEntry) : List VehicleProfile :=
  match data.find? (fun item => item.numberPlate == plate_number) with
  | Option.some _ => appendToFirst data plate_number loc
  | Option.none =>
      data ++ [{ ownerName := ownerOrUnknown (is_authorized reg plate_number).2,
                 vehicleName := "",
                 numberPlate := plate_number,
                 locations := [loc] }]

/-- One row of the access_logs table (database.py lines 29-38, 74-77). -/
structure AccessRow where
  plate_number : String
  location : String
  confidence : ℚ
deriving DecidableEq

/-- One row of the all_detections table (database.py lines 41-49, 147-150). -/
structure DetectionRow where
  plate_number : String
  confidence : ℚ
  authorized : Bool
deriving DecidableEq

/-- Embeds database.py lines 67-81 (log_entry): normalize the plate, append
one access_logs row, then merge into the JSON ledger under the same normalized
key. Returns (access_logs rows, ledger) after the call. -/
def log_entry (reg : Registry) (logs : List AccessRow) (data : List VehicleProfile)
    (plate_number location : String) (confidence : ℚ) (loc : LocEntry) :
    List AccessRow × List VehicleProfile :=
  let clean_plate := normalizePlate plate_number
  (logs ++ [{ plate_number := clean_plate, location := location, confidence := confidence }],
   log_to_json reg data clean_plate loc)

/-- Embeds database.py lines 140-151 (log_detection): normalize the plate and
append one all_detections row. -/
def log_detection (dets : List DetectionRow) (plate_number : String) (confidence : ℚ)
    (authorized : Bool) : List DetectionRow :=
  dets ++ [{ plate_number := normalizePlate plate_number, confidence := confidence,
             authorized := authorized }]

/-! ### The per-plate cooldown deduplicator (main.py lines 94-95, 170-173)

main.py keeps last_log_time, a dict from plate text to the instant of the last
logged entry, and LOG_COOLDOWN = 10 seconds; an authorized detection is logged
iff the plate is absent from the dict or now minus the stored instant strictly
exceeds the cooldown, and the dict is updated exactly on a log. -/

/-- The LOG_COOLDOWN constant of main.py line 95, in seconds. -/
def LOG_COOLDOWN : ℚ := 10

/-- Embeds the condition of main.py line 171: text not in last_log_time or
current_time minus last_log_time[text] over the cooldown. -/
def should_log (m : List (String × ℚ)) (plate : String) (now W : ℚ) : Bool :=
  match m.lookup plate with
  | Option.none => true
  | Option.some last => decide (now - last > W)

/-- Embeds the dict write last_log_time[text] = current_time of main.py
line 173. -/
def setLast (m : List (String × ℚ)) (plate : String) (now : ℚ) : List (String × ℚ) :=
  (plate, now) :: m.eraseP (fun q => q.1 == plate)

/-- The cooldown gate of main.py lines 170-173 run over the detection instants
of one fixed authorized plate: last is the plate's entry of last_log_time
(none when absent), and the result lists the instants at which db.log_entry
ran (one AccessEvent row each). -/
def runCooldown (W : ℚ) : Option ℚ → List ℚ → List ℚ
  | _, [] => []
  | Option.none, t :: ts => t :: runCooldown W (Option.some t) ts
  | Option.some l, t :: ts =>
      if t - l > W then t :: runCooldown W (Option.some t) ts
      else runCooldown W (Option.some l) ts

/-- The cooldown state carried through a run: the initial instant until a log
happens, thereafter always the instant of the latest log. -/
def lastLoggedAux (W : ℚ) : Option ℚ → List ℚ → Option ℚ
  | last, [] => last
  | Option.none, t :: ts => lastLoggedAux W (Option.some t) ts
  | Option.some l, t :: ts =>
      if t - l > W then lastLoggedAux W (Option.some t) ts
      else lastLoggedAux W (Option.some l) ts

/-- Appending one more detection instant extends the logged list by that
instant exactly when the carried state allows it. -/
theorem runCooldown_append (W t : ℚ) :
    ∀ (ts : List ℚ) (last : Option ℚ),
      runCooldown W last (ts ++ [t]) =
        runCooldown W last ts ++
          (match lastLoggedAux W last ts with
           | Option.none => [t]
           | Option.some l => if t - l > W then [t] else []) := by
  intro ts
  induction ts with
  | nil =>
      intro last
      cases last with
      | none => simp [runCooldown, lastLoggedAux]
      | some l =>
          simp only [List.nil_append, runCooldown, lastLoggedAux]
  | cons u ts ih =>
      intro last
      cases last with
      | none =>
          simp only [List.cons_append, runCooldown, List.append_eq]
          rw [ih (Option.some u)]
          rfl
      | some l =>
          simp only [List.cons_append, runCooldown, List.append_eq]
          by_cases h : u - l > W
          · rw [if_pos h, if_pos h, ih (Option.some u)]
            rw [show lastLoggedAux W (Option.some l) (u :: ts)
                  = lastLoggedAux W (Option.some u) ts by
                simp only [lastLoggedAux]; rw [if_pos h]]
            rfl
          · rw [if_neg h, if_neg h, ih (Option.some l)]
            rw [show lastLoggedAux W (Option.some l) (u :: ts)
                  = lastLoggedAux W (Option.some l) ts by
                simp only [lastLoggedAux]; rw [if_neg h]]

/-- The last element of a cons in terms of the tail's last element. -/
theorem getLast?_cons_or (a : ℚ) (l : List ℚ) :
    (a :: l).getLast? = l.getLast?.or (Option.some a) := by
  induction l with
  | nil => rfl
  | cons b l _ =>
      rw [List.getLast?_cons_cons]
      cases h : (b :: l).getLast? with
      | none =>
          exact absurd (List.getLast?_eq_none_iff.mp h) (List.cons_ne_nil b l)
      | some x => rfl

/-- The carried cooldown state is the last logged instant, falling back to the
initial state when the run logged nothing. -/
theorem lastLoggedAux_eq (W : ℚ) :
    ∀ (ts : List ℚ) (last : Option ℚ),
      lastLoggedAux W last ts = ((runCooldown W last ts).getLast?).or last := by
  intro ts
  induction ts with
  | nil => intro last; simp [lastLoggedAux, runCooldown]
  | cons u ts ih =>
      intro last
      cases last with
      | none =>
          simp only [lastLoggedAux, runCooldown]
          rw [ih (Option.some u), getLast?_cons_or, Option.or_assoc]
          rfl
      | some l =>
          simp only [lastLoggedAux, runCooldown]
          by_cases h : u - l > W
          · rw [if_pos h, if_pos h, ih (Option.some u), getLast?_cons_or, Option.or_assoc]
            rfl
          · rw [if_neg h, if_neg h, ih (Option.some l)]

/-- Every instant logged from state some l lies strictly more than one window
after l (for a nonnegative window). -/
theorem mem_runCooldown_some {W : ℚ} (hW : 0 ≤ W) :
    ∀ (ts : List ℚ) (l x : ℚ), x ∈ runCooldown W (Option.some l) ts → x - l > W := by
  intro ts
  induction ts with
  | nil => intro l x hx; simp [runCooldown] at hx
  | cons t ts ih =>
      intro l x hx
      simp only [runCooldown] at hx
      by_cases h : t - l > W
      · rw [if_pos h] at hx
        rcases List.mem_cons.mp hx with rfl | hx'
        · exact h
        · have := ih t x hx'
          linarith
      · rw [if_neg h] at hx
        exact ih l x hx

/-- Consecutive logged instants are separated by more than one window. -/
theorem chain_runCooldown {W : ℚ} (hW : 0 ≤ W) :
    ∀ (ts : List ℚ) (last : Option ℚ),
      (runCooldown W last ts).Chain' (fun x y => y - x > W) := by
  intro ts
  induction ts with
  | nil => intro last; simp [runCooldown]
  | cons t ts ih =>
      intro last
      cases last with
      | none =>
          simp only [runCooldown]
          rw [List.chain'_cons']
          exact ⟨fun y hy => mem_runCooldown_some hW ts t y (List.mem_of_mem_head? hy), ih _⟩
      | some l =>
          simp only [runCooldown]
          by_cases h : t - l > W
          · rw [if_pos h, List.chain'_cons']
            exact ⟨fun y hy => mem_runCooldown_some hW ts t y (List.mem_of_mem_head? hy), ih _⟩
          · rw [if_neg h]
            exact ih _

/-- A list whose consecutive elements are related by a transitive relation is
pairwise related, instantiated to window gaps. -/
theorem pairwise_runCooldown {W : ℚ} (hW : 0 ≤ W) (ts : List ℚ) (last : Option ℚ) :
    (runCooldown W last ts).Pairwise (fun x y => y - x > W) := by
  haveI : IsTrans ℚ (fun x y => y - x > W) := ⟨fun a b c hab hbc => by
    simp only [gt_iff_lt] at hab hbc ⊢
    linarith⟩
  exact List.chain'_iff_pairwise.mp (chain_runCooldown hW ts last)

/-- A pairwise-related list has at most one element satisfying a predicate no
two related elements can share. -/
theorem countP_le_one_of_pairwise {α : Type} (p : α → Bool) (r : α → α → Prop)
    (hp : ∀ x y, r x y → p x = true → p y = true → False) :
    ∀ l : List α, l.Pairwise r → l.countP p ≤ 1 := by
  intro l
  induction l with
  | nil => intro _; simp
  | cons a l ih =>
      intro h
      rw [List.pairwise_cons] at h
      rw [List.countP_cons]
      by_cases hpa : p a = true
      · have hz : l.countP p = 0 := by
          rw [List.countP_eq_zero]
          intro y hy hpy
          exact hp a y (h.1 y hy) hpa hpy
        simp [hz, hpa]
      · simp only [hpa, if_false]
        simpa using ih h.2

/-- Claim C2: over the detection instants of one authorized plate, an
AccessEvent is appended at instant t iff there is no previously logged instant
or t exceeds the last logged instant by strictly more than the window; for a
nonnegative window at most one logged instant falls inside any closed window
of length W; and with W = LOG_COOLDOWN = 10 and attempts at 0, 9, 11 exactly
the attempts at 0 and 11 are logged. -/
theorem cooldown_dedup_spec :
    (∀ (W : ℚ) (ts : List ℚ) (t : ℚ),
        runCooldown W Option.none (ts ++ [t]) =
          runCooldown W Option.none ts ++
            (match (runCooldown W Option.none ts).getLast? with
             | Option.none => [t]
             | Option.some l => if t - l > W then [t] else [])) ∧
    (∀ W : ℚ, 0 ≤ W → ∀ (ts : List ℚ) (a : ℚ),
        (runCooldown W Option.none ts).countP (fun x => decide (a ≤ x ∧ x ≤ a + W)) ≤ 1) ∧
    runCooldown LOG_COOLDOWN Option.none [0, 9, 11] = [0, 11] := by
  refine ⟨?_, ?_, ?_⟩
  · intro W ts t
    rw [runCooldown_append W t ts Option.none, lastLoggedAux_eq W ts Option.none,
      Option.or_none]
  · intro W hW ts a
    apply countP_le_one_of_pairwise (fun x => decide (a ≤ x ∧ x ≤ a + W))
      (fun x y => y - x > W)
    · intro x y hr hx hy
      have hx' := of_decide_eq_true hx
      have hy' := of_decide_eq_true hy
      simp only [gt_iff_lt] at hr
      linarith [hx'.1, hx'.2, hy'.1, hy'.2]
    · exact pairwise_runCooldown hW ts Option.none
  · norm_num [runCooldown, LOG_COOLDOWN]

/-! ### Claim C5: the vehicle ledger upsert keeps one profile per plate -/

/-- Number of ledger profiles carrying a given plate. -/
def profileCount (data : List VehicleProfile) (q : String) : Nat :=
  data.countP (fun v => v.numberPlate == q)

/-- When some profile carries the plate, appendToFirst rewrites exactly the
first such profile, extending its sample list by the new sample. -/
theorem appendToFirst_spec (p : String) (loc : LocEntry) :
    ∀ data : List VehicleProfile, (∃ x ∈ data, x.numberPlate = p) →
      ∃ l1 e l2, data = l1 ++ e :: l2 ∧ (∀ x ∈ l1, x.numberPlate ≠ p) ∧ e.numberPlate = p ∧
        appendToFirst data p loc = l1 ++ { e with locations := e.locations ++ [loc] } :: l2 := by
  intro data
  induction data with
  | nil =>
      rintro ⟨x, hx, -⟩
      simp at hx
  | cons a data ih =>
      intro hex
      by_cases ha : a.numberPlate = p
      · refine ⟨[], a, data, rfl, by simp, ha, ?_⟩
        simp only [appendToFirst]
        rw [if_pos (by simp [ha])]
        rfl
      · have hex' : ∃ x ∈ data, x.numberPlate = p := by
          rcases hex with ⟨x, hx, hxp⟩
          rcases List.mem_cons.mp hx with rfl | h2
          · exact absurd hxp ha
          · exact ⟨x, h2, hxp⟩
        rcases ih hex' with ⟨l1, e, l2, hd, hl1, hep, happ⟩
        refine ⟨a :: l1, e, l2, by rw [hd]; rfl, ?_, hep, ?_⟩
        · intro x hx
          rcases List.mem_cons.mp hx with rfl | h2
          · exact ha
          · exact hl1 x h2
        · simp only [appendToFirst]
          rw [if_neg (by simp [ha]), happ]
          rfl

/-- appendToFirst never changes which plates the profiles carry. -/
theorem appendToFirst_profileCount (p q : String) (loc : LocEntry) :
    ∀ data : List VehicleProfile,
      profileCount (appendToFirst data p loc) q = profileCount data q := by
  intro data
  induction data with
  | nil => rfl
  | cons a data ih =>
      simp only [appendToFirst]
      by_cases ha : a.numberPlate == p
      · rw [if_pos ha]
        simp only [profileCount, List.countP_cons]
      · rw [if_neg ha]
        simp only [profileCount, List.countP_cons] at ih ⊢
        rw [ih]

/-- Claim C5: the ledger upsert of database.py (_log_to_json) creates a fresh
profile (owner from the registry with the Unknown fallback, empty vehicle
name, single sample) exactly when no profile carries the plate; when one does,
it appends the sample to the first such profile and creates nothing; it
preserves the at-most-one-profile-per-plate invariant; and logging the same
plate twice starting from an empty ledger yields one profile holding both
samples. -/
theorem log_to_json_upsert_spec :
    (∀ (reg : Registry) (data : List VehicleProfile) (p : String) (loc : LocEntry),
      (∀ x ∈ data, x.numberPlate ≠ p) →
        log_to_json reg data p loc =
          data ++ [{ ownerName := ownerOrUnknown (is_authorized reg p).2, vehicleName := "",
                     numberPlate := p, locations := [loc] }]) ∧
    (∀ (reg : Registry) (data : List VehicleProfile) (p : String) (loc : LocEntry),
      (∃ x ∈ data, x.numberPlate = p) →
        ∃ l1 e l2, data = l1 ++ e :: l2 ∧ (∀ x ∈ l1, x.numberPlate ≠ p) ∧
          e.numberPlate = p ∧
          log_to_json reg data p loc =
            l1 ++ { e with locations := e.locations ++ [loc] } :: l2) ∧
    (∀ (reg : Registry) (data : List VehicleProfile) (p q : String) (loc : LocEntry),
      profileCount data q ≤ 1 → profileCount (log_to_json reg data p loc) q ≤ 1) ∧
    (∀ (reg : Registry) (p : String) (loc1 loc2 : LocEntry),
      log_to_json reg (log_to_json reg [] p loc1) p loc2 =
        [{ ownerName := ownerOrUnknown (is_authorized reg p).2, vehicleName := "",
           numberPlate := p, locations := [loc1, loc2] }]) := by
  have habsent : ∀ (reg : Registry) (data : List VehicleProfile) (p : String) (loc : LocEntry),
      (∀ x ∈ data, x.numberPlate ≠ p) →
        log_to_json reg data p loc =
          data ++ [{ ownerName := ownerOrUnknown (is_authorized reg p).2, vehicleName := "",
                     numberPlate := p, locations := [loc] }] := by
    intro reg data p loc h
    unfold log_to_json
    rw [List.find?_eq_none.mpr (by intro x hx; simpa using h x hx)]
  have hpresent : ∀ (reg : Registry) (data : List VehicleProfile) (p : String) (loc : LocEntry),
      (∃ x ∈ data, x.numberPlate = p) →
        log_to_json reg data p loc = appendToFirst data p loc := by
    intro reg data p loc h
    unfold log_to_json
    have hsome : (data.find? fun item => item.numberPlate == p).isSome := by
      rw [List.find?_isSome]
      rcases h with ⟨x, hx, hxp⟩
      exact ⟨x, hx, by simp [hxp]⟩
    cases hf : data.find? fun item => item.numberPlate == p with
    | none => rw [hf] at hsome; simp at hsome
    | some e => rfl
  refine ⟨habsent, ?_, ?_, ?_⟩
  · intro reg data p loc h
    rcases appendToFirst_spec p loc data h with ⟨l1, e, l2, hd, hl1, hep, happ⟩
    exact ⟨l1, e, l2, hd, hl1, hep, by rw [hpresent reg data p loc h, happ]⟩
  · intro reg data p q loc hq
    by_cases h : ∃ x ∈ data, x.numberPlate = p
    · rw [hpresent reg data p loc h, appendToFirst_profileCount]
      exact hq
    · push_neg at h
      rw [habsent reg data p loc h]
      simp only [profileCount, List.countP_append, List.countP_cons, List.countP_nil]
      by_cases hqp : q = p
      · subst hqp
        have h0 : data.countP (fun v => v.numberPlate == q) = 0 := by
          rw [List.countP_eq_zero]
          intro x hx
          simpa using h x hx
        simp [h0]
      · have hpq : (p == q) = false := beq_false_of_ne fun he => hqp he.symm
        rw [hpq]
        simpa using hq
  · intro reg p loc1 loc2
    rw [habsent reg [] p loc1 (by simp)]
    rw [hpresent reg _ p loc2 (by simp)]
    simp [appendToFirst]

/-! ### Claim C9: every plate key is used in normalized form -/

/-- Claim C9: each database operation normalizes its plate argument before any
lookup, insertion or persisted key use — so feeding it an already-normalized
plate changes nothing — and every text the OCR stage can hand to the frame
loop (the keys of last_log_time and the plate compared against the ledger) is
already a fixed point of normalization. -/
theorem plate_keys_normalized_spec :
    (∀ (reg : Registry) (p : String),
        is_authorized reg (normalizePlate p) = is_authorized reg p) ∧
    (∀ (reg : Registry) (p o : String),
        add_authorized_vehicle reg (normalizePlate p) o = add_authorized_vehicle reg p o) ∧
    (∀ (dets : List DetectionRow) (p : String) (conf : ℚ) (auth : Bool),
        log_detection dets (normalizePlate p) conf auth = log_detection dets p conf auth) ∧
    (∀ (reg : Registry) (logs : List AccessRow) (data : List VehicleProfile)
        (p location : String) (conf : ℚ) (loc : LocEntry),
        log_entry reg logs data (normalizePlate p) location conf loc
          = log_entry reg logs data p location conf loc) ∧
    (∀ (ok : Bool) (results : List (String × ℚ)) (s : String) (conf : ℚ),
        extract_text ok results = (Option.some s, conf) → normalizePlate s = s) := by
  refine ⟨?_, ?_, ?_, ?_, ?_⟩
  · intro reg p
    simp only [is_authorized, normalizePlate_idem]
  · intro reg p o
    simp only [add_authorized_vehicle, normalizePlate_idem]
  · intro dets p conf auth
    simp only [log_detection, normalizePlate_idem]
  · intro reg logs data p location conf loc
    simp only [log_entry, normalizePlate_idem]
  · intro ok results s conf h
    simp only [extract_text] at h
    split_ifs at h
    · simp at h
    · simp at h
    · have hs : (selectBest results).1 = s := by
        have h2 := congrArg Prod.fst h
        simpa using h2
      rw [← hs]
      exact selectBest_fixed results

/-! ### The per-detection pipeline step (main.py lines 152-218) and claim C1 -/

/-- One call into ANPRDatabase as made from the frame loop: db.log_entry
appends an access_logs row and merges the ledger, db.log_detection would
append an all_detections (raw-detection) row. -/
inductive DBCall where
  | logEntryCall (plate : String) (confidence : ℚ)
  | logDetectionCall (plate : String) (confidence : ℚ) (authorized : Bool)
deriving DecidableEq

/-- Recognizes a raw-detection log call. -/
def DBCall.isLogDetection : DBCall → Bool
  | DBCall.logDetectionCall _ _ _ => true
  | _ => false

/-- Embeds main.py lines 152-218: the frame loop's handling of one OCR result
(text, confidence) at instant now. A validated result (truthy text, confidence
over 0.3) is checked against the registry; an authorized plate that passes the
cooldown triggers exactly one db.log_entry call and the last_log_time write;
every other path makes no database call. Returns (database calls made,
last_log_time afterwards). -/
def processOCRResult (reg : Registry) (lastLog : List (String × ℚ)) (now : ℚ)
    (text : Option String) (conf : ℚ) : List DBCall × List (String × ℚ) :=
  match text with
  | Option.none => ([], lastLog)
  | Option.some t =>
      if t ≠ "" ∧ conf > 3/10 then
        if (is_authorized reg t).1 then
          if should_log lastLog t now LOG_COOLDOWN then
            ([DBCall.logEntryCall t conf], setLast lastLog t now)
          else ([], lastLog)
        else ([], lastLog)
      else ([], lastLog)

/-- Claim C1 (code defect): a validated, authorized, cooldown-passing
detection makes the frame loop call db.log_entry, yet no db.log_detection call
occurs — main.py never invokes log_detection at all — so zero rows reach the
all_detections raw-detection log where the claim (and database.py's own
comment at line 40, a table for logging ALL detections) requires exactly one;
the final conjunct shows no input to the per-detection step ever produces a
raw-detection call. -/
theorem validated_detection_writes_no_detection_record :
    (processOCRResult [("KA01AB1234", "Admin User")] [] 0
        (Option.some "KA01AB1234") (9/10)).1
      = [DBCall.logEntryCall "KA01AB1234" (9/10)] ∧
    ((processOCRResult [("KA01AB1234", "Admin User")] [] 0
        (Option.some "KA01AB1234") (9/10)).1.countP DBCall.isLogDetection = 0) ∧
    (∀ (reg : Registry) (lastLog : List (String × ℚ)) (now : ℚ)
        (text : Option String) (conf : ℚ),
      (processOCRResult reg lastLog now text conf).1.countP DBCall.isLogDetection = 0) := by
  have hval : ("KA01AB1234" : String) ≠ "" ∧ (9/10 : ℚ) > 3/10 := by
    constructor
    · intro h
      exact absurd (congrArg String.length h) (by decide)
    · norm_num
  have h1 : (processOCRResult [("KA01AB1234", "Admin User")] [] 0
      (Option.some "KA01AB1234") (9/10)).1
        = [DBCall.logEntryCall "KA01AB1234" (9/10)] := by
    simp only [processOCRResult]
    rw [if_pos hval]
    rfl
  refine ⟨h1, ?_, ?_⟩
  · rw [h1]
    rfl
  · intro reg lastLog now text conf
    cases text with
    | none => rfl
    | some t =>
        simp only [processOCRResult]
        split_ifs <;> rfl

/-! ### Claim C3: persistence write failure during authorized logging -/

/-- Observable outcome of the logging block at main.py lines 170-173:
whether the frame loop goes on to the next frame, the last_log_time dict, and
the access_logs rows committed by the attempt. -/
structure LogAttempt where
  continues : Bool
  lastLog : List (String × ℚ)
  accessRows : List AccessRow
deriving DecidableEq

/-- Embeds main.py lines 170-173 for an authorized detection that passed the
cooldown check, with the fallibility of the two persistence writes of
db.log_entry explicit: insertOk is the INSERT INTO access_logs plus commit
(database.py lines 74-78), ledgerOk the ledger read-modify-write (database.py
lines 83-137, called at line 81 after the commit). The only handler around the
frame loop is except KeyboardInterrupt (main.py line 247), which a database
error does not match, so a raise skips line 173 (the last_log_time write) and
terminates the loop. -/
def attemptAuthorizedLog (insertOk ledgerOk : Bool) (lastLog : List (String × ℚ))
    (text location : String) (now conf : ℚ) : LogAttempt :=
  if insertOk = false then
    { continues := false, lastLog := lastLog, accessRows := [] }
  else if ledgerOk = false then
    { continues := false, lastLog := lastLog,
      accessRows := [{ plate_number := normalizePlate text, location := location,
                       confidence := conf }] }
  else
    { continues := true, lastLog := setLast lastLog text now,
      accessRows := [{ plate_number := normalizePlate text, location := location,
                       confidence := conf }] }

/-- Claim C3 counterexample: with the access-log INSERT raising on an
authorized detection of KA01AB1234, the frame loop does not continue to the
next frame and the plate's last-logged instant is left unset — against the
claim that the failure is reported as a warning only with the deduplicator
still updated. -/
theorem persistence_failure_not_warning_cex :
    (attemptAuthorizedLog false true [] "KA01AB1234" "Main Gate" 0 1).continues = false ∧
    (attemptAuthorizedLog false true [] "KA01AB1234" "Main Gate" 0 1).lastLog.lookup
        "KA01AB1234" = Option.none := by
  constructor <;> rfl

/-- Claim C3 (amended): when either persistence write fails while logging an
authorized detection, the exception propagates uncaught: the frame loop
terminates instead of continuing and the deduplicator's last-logged instant is
left untouched, so that attempt suppresses nothing later; the loop continues
with the instant updated exactly when both writes succeed, and a ledger
failure still leaves the already-committed access row behind. -/
theorem attemptAuthorizedLog_spec (insertOk ledgerOk : Bool)
    (lastLog : List (String × ℚ)) (text location : String) (now conf : ℚ) :
    ((insertOk = false ∨ ledgerOk = false) →
      (attemptAuthorizedLog insertOk ledgerOk lastLog text location now conf).continues
          = false ∧
      (attemptAuthorizedLog insertOk ledgerOk lastLog text location now conf).lastLog
          = lastLog) ∧
    (insertOk = true → ledgerOk = true →
      attemptAuthorizedLog insertOk ledgerOk lastLog text location now conf =
        { continues := true, lastLog := setLast lastLog text now,
          accessRows := [{ plate_number := normalizePlate text, location := location,
                           confidence := conf }] }) := by
  cases insertOk <;> cases ledgerOk <;>
    simp [attemptAuthorizedLog]

/-- Closed witness for claim C3's amended theorem at concrete inputs: a failed
insert aborts with the dict unchanged, a fully successful write continues with
the dict updated. -/
theorem attemptAuthorizedLog_spec_witness :
    ((attemptAuthorizedLog false true [] "KA01AB1234" "Main Gate" 0 1).continues = false ∧
      (attemptAuthorizedLog false true [] "KA01AB1234" "Main Gate" 0 1).lastLog = []) ∧
    attemptAuthorizedLog true true [] "KA01AB1234" "Main Gate" 0 1 =
      { continues := true, lastLog := setLast [] "KA01AB1234" 0,
        accessRows := [{ plate_number := normalizePlate "KA01AB1234",
                         location := "Main Gate", confidence := 1 }] } := by
  exact ⟨(attemptAuthorizedLog_spec false true [] "KA01AB1234" "Main Gate" 0 1).1
      (Or.inl rfl),
    (attemptAuthorizedLog_spec true true [] "KA01AB1234" "Main Gate" 0 1).2 rfl rfl⟩

/-! ### Claim C4: frame-loop termination and collaborator failures -/

/-- Shape of an image (numpy array) as the pipeline inspects it: shape[0] is
the height, shape[1] the width. -/
structure Image where
  height : Nat
  width : Nat
deriving DecidableEq

/-- Per-vehicle collaborator outcomes for one frame: the plate-localization
call detector.detect_plate (main.py line 136, Option.none standing for its
(None, None) result) and the OCR call ocr.extract_text (main.py line 152),
each either its value or a raised exception; neither call sits inside a try
in main.py. -/
structure VehicleObs where
  locResult : Except Unit (Option Image)
  ocrResult : Except Unit (Option String × ℚ)

/-- Embeds the per-vehicle body of the frame loop (main.py lines 125-222):
a raised localization or OCR exception propagates; a missing plate takes the
No Plate branch with no OCR call; a localized plate runs OCR only when over
10 pixels high and 30 wide; the OCR result then goes through
processOCRResult. The state is (last_log_time, database calls made so far
this frame). -/
def processVehicle (reg : Registry) (now : ℚ)
    (st : List (String × ℚ) × List DBCall) (v : VehicleObs) :
    Except Unit (List (String × ℚ) × List DBCall) :=
  match v.locResult with
  | Except.error e => Except.error e
  | Except.ok Option.none => Except.ok st
  | Except.ok (Option.some plate_img) =>
      if plate_img.height > 10 ∧ plate_img.width > 30 then
        match v.ocrResult with
        | Except.error e => Except.error e
        | Except.ok (text, conf) =>
            let r := processOCRResult reg st.1 now text conf
            Except.ok (r.2, st.2 ++ r.1)
      else Except.ok st

/-- The for-loop of main.py line 125 over the detected vehicles, stopping at
the first escaping exception. -/
def processVehicles (reg : Registry) (now : ℚ) :
    List (String × ℚ) × List DBCall → List VehicleObs →
      Except Unit (List (String × ℚ) × List DBCall)
  | st, [] => Except.ok st
  | st, v :: vs =>
      match processVehicle reg now st v with
      | Except.error e => Except.error e
      | Except.ok st2 => processVehicles reg now st2 vs

/-- How one iteration of the frame loop ends. -/
inductive LoopOutcome where
  | nextFrame (lastLog : List (String × ℚ)) (calls : List DBCall)
  | exitAcquisitionFailed
  | exitUserRequest
  | abortException

/-- Inputs of one frame-loop iteration: whether cap.read() produced a frame,
the outcome of detector.detect_vehicles together with the per-vehicle
collaborator outcomes, and whether the user closed the window or pressed q. -/
structure FrameInput where
  frameAcquired : Bool
  vehiclesResult : Except Unit (List VehicleObs)
  userQuit : Bool

/-- Embeds one iteration of the frame loop (main.py lines 98-246): a failed
cap.read() breaks out (lines 104-106); a raised detect_vehicles is caught and
replaced by the empty vehicle list (lines 119-123); the vehicles are processed
in order; an exception escaping the body is not matched by the except
KeyboardInterrupt at line 247 and terminates the loop; otherwise a user quit
(window closed or q, lines 236-246) breaks, else the loop moves to the next
frame. -/
def frameStep (reg : Registry) (lastLog : List (String × ℚ)) (now : ℚ)
    (input : FrameInput) : LoopOutcome :=
  if input.frameAcquired = false then LoopOutcome.exitAcquisitionFailed
  else
    let vehicles := match input.vehiclesResult with
      | Except.error _ => []
      | Except.ok vs => vs
    match processVehicles reg now (lastLog, []) vehicles with
    | Except.error _ => LoopOutcome.abortException
    | Except.ok st =>
        if input.userQuit then LoopOutcome.exitUserRequest
        else LoopOutcome.nextFrame st.1 st.2

/-- A vehicle whose processing raises does so from its localization or its OCR
call. -/
theorem processVehicle_error {reg : Registry} {now : ℚ}
    {st : List (String × ℚ) × List DBCall} :
    ∀ (v : VehicleObs) (e : Unit), processVehicle reg now st v = Except.error e →
      v.locResult = Except.error () ∨ v.ocrResult = Except.error () := by
  rintro ⟨loc, ocr⟩ e h
  cases loc with
  | error e2 =>
      cases e2
      exact Or.inl rfl
  | ok o =>
      cases o with
      | none => simp [processVehicle] at h
      | some plate_img =>
          simp only [processVehicle] at h
          by_cases hs : plate_img.height > 10 ∧ plate_img.width > 30
          · rw [if_pos hs] at h
            cases ocr with
            | error e3 =>
                cases e3
                exact Or.inr rfl
            | ok r =>
                obtain ⟨text, conf⟩ := r
                simp at h
          · rw [if_neg hs] at h
            simp at h

/-- A raising run of the vehicle loop contains a vehicle whose localization or
OCR call raised. -/
theorem processVehicles_error {reg : Registry} {now : ℚ} :
    ∀ (vs : List VehicleObs) (st : List (String × ℚ) × List DBCall),
      processVehicles reg now st vs = Except.error () →
        ∃ v ∈ vs, v.locResult = Except.error () ∨ v.ocrResult = Except.error () := by
  intro vs
  induction vs with
  | nil => intro st h; simp [processVehicles] at h
  | cons v vs ih =>
      intro st h
      simp only [processVehicles] at h
      cases hv : processVehicle reg now st v with
      | error e =>
          exact ⟨v, List.mem_cons_self v vs, processVehicle_error v e hv⟩
      | ok st2 =>
          rw [hv] at h
          rcases ih st2 h with ⟨w, hw, hcase⟩
          exact ⟨w, List.mem_cons_of_mem v hw, hcase⟩

/-- Claim C4 counterexample: a frame with one detected vehicle whose OCR call
raises makes the frame loop terminate abnormally — a recognition-stage
exception does end the loop, against the claim that only acquisition failure
or user exit can. -/
theorem recognition_exception_terminates_loop_cex :
    frameStep [] [] 0
      { frameAcquired := true,
        vehiclesResult := Except.ok
          [{ locResult := Except.ok (Option.some { height := 20, width := 40 }),
             ocrResult := Except.error () }],
        userQuit := false } = LoopOutcome.abortException := by
  rfl

/-- Claim C4 (amended): a raised vehicle-detection call is caught and the
frame is processed as zero vehicles with the loop continuing; a failed frame
acquisition ends the loop; but the loop also terminates on an abortException,
which happens exactly when the detection call succeeded and some detected
vehicle's localization or OCR call raised uncaught. -/
theorem frameStep_termination_spec (reg : Registry) (lastLog : List (String × ℚ))
    (now : ℚ) (input : FrameInput) :
    (input.frameAcquired = false →
      frameStep reg lastLog now input = LoopOutcome.exitAcquisitionFailed) ∧
    (∀ e, input.frameAcquired = true → input.vehiclesResult = Except.error e →
      input.userQuit = false →
      frameStep reg lastLog now input = LoopOutcome.nextFrame lastLog []) ∧
    (frameStep reg lastLog now input = LoopOutcome.abortException →
      ∃ vs, input.vehiclesResult = Except.ok vs ∧
        ∃ v ∈ vs, v.locResult = Except.error () ∨ v.ocrResult = Except.error ()) := by
  refine ⟨?_, ?_, ?_⟩
  · intro h
    unfold frameStep
    rw [if_pos h]
  · intro e hacq herr hquit
    unfold frameStep
    rw [if_neg (by rw [hacq]; simp), herr]
    simp only [processVehicles]
    rw [if_neg (by rw [hquit]; simp)]
  · intro h
    unfold frameStep at h
    by_cases hacq : input.frameAcquired = false
    · rw [if_pos hacq] at h
      exact absurd h (by simp)
    · rw [if_neg hacq] at h
      cases hv : input.vehiclesResult with
      | error e =>
          rw [hv] at h
          dsimp only at h
          simp only [processVehicles] at h
          split_ifs at h
      | ok vs =>
          rw [hv] at h
          dsimp only at h
          refine ⟨vs, rfl, ?_⟩
          cases hp : processVehicles reg now (lastLog, []) vs with
          | error e2 =>
              cases e2
              exact processVehicles_error vs (lastLog, []) hp
          | ok st =>
              rw [hp] at h
              dsimp only at h
              split_ifs at h

/-! ### Claim C10: plate localization fallback without the Haar cascade -/

/-- One candidate rectangle (x, y, w, h) from detectMultiScale. -/
structure Rect where
  x : Nat
  y : Nat
  w : Nat
  h : Nat
deriving DecidableEq

/-- Embeds detector.py lines 55-85 (detect_plate). The cascade collaborator is
optional: self.plate_cascade is None when no Haar file was found (detector.py
lines 27-35); a present cascade yields the candidate rectangles of
detectMultiScale. crop img x1 y1 x2 y2 stands for the numpy slice
vehicle_image[y1:y2, x1:x2]. sorted by w*h descending and taking the head is
argmax of the area; the padding int(w * 0.1) is modelled as w / 10 (the claims
do not depend on the rounding of the ten-percent margin), and Python's
max(0, x - pad) coincides with truncated Nat subtraction. -/
def detect_plate (cascade : Option (Image → List Rect))
    (crop : Image → Nat → Nat → Nat → Nat → Image) (vehicle_image : Image) :
    Option (Image × List Nat) :=
  match cascade with
  | Option.none =>
      Option.some (vehicle_image, [0, 0, vehicle_image.width, vehicle_image.height])
  | Option.some cas =>
      match (cas vehicle_image).argmax (fun r => r.w * r.h) with
      | Option.none => Option.none
      | Option.some r =>
          let pad_w := r.w / 10
          let pad_h := r.h / 10
          let x1 := r.x - pad_w
          let y1 := r.y - pad_h
          let x2 := min vehicle_image.width (r.x + r.w + pad_w)
          let y2 := min vehicle_image.height (r.y + r.h + pad_h)
          Option.some (crop vehicle_image x1 y1 x2 y2, [x1, y1, x2, y2])

/-- Claim C10: with no Haar cascade loaded, detect_plate returns the entire
vehicle image with the box [0, 0, width, height], never the absent result; the
absent result (the pipeline's No Plate branch) occurs exactly when a cascade
is present and finds no candidate region. -/
theorem detect_plate_fallback_spec (crop : Image → Nat → Nat → Nat → Nat → Image)
    (img : Image) :
    (detect_plate Option.none crop img
        = Option.some (img, [0, 0, img.width, img.height])) ∧
    (∀ cascade, detect_plate cascade crop img = Option.none ↔
      ∃ cas, cascade = Option.some cas ∧ cas img = []) := by
  constructor
  · rfl
  · intro cascade
    cases cascade with
    | none =>
        simp only [detect_plate]
        constructor
        · intro h; simp at h
        · rintro ⟨cas, hc, -⟩; simp at hc
    | some cas =>
        constructor
        · intro hnone
          refine ⟨cas, rfl, ?_⟩
          simp only [detect_plate] at hnone
          cases h : (cas img).argmax (fun r => r.w * r.h) with
          | none => exact List.argmax_eq_none.mp h
          | some r =>
              rw [h] at hnone
              simp at hnone
        · rintro ⟨cas2, hc, hnil⟩
          obtain rfl : cas2 = cas := (Option.some.inj hc).symm
          simp only [detect_plate, hnil, List.argmax_nil]

end ANPR
